import Mathlib

/-!
Verification of the console color-formatting engine of `sea-git-sync`.

This file is a shallow embedding, in Lean 4, of the console text-styling
engine of the repository:

* `src/crates/snowfall_core/src/console/cprint_imp.rs` — the hand-written
  bracket-nesting parser (`parse_text`), color resolution (`parse_color`,
  `parse_hex`, `html_named_color`, `snowfall_color`), semantic formatting
  (`format_text`) and the renderer (`cprint_imp`).
* `src/src/cprintln.rs` — the regex-based variant (`cprint_imp`,
  `process_markdown`, its own `parse_color`), embedded here under `_ln`
  names to keep the two variants apart.
* `src/crates/snowfall_core/src/strings/to_comma_string.rs`.

Conventions of the embedding:

* Rust `String`/`&str` values are Lean `String`s; the parsers work on
  `List Char`, mirroring the Rust code's `Vec<char>`.  Where the Rust
  code uses `str::len` and byte-range slicing (`parse_hex` and both
  `parse_color`s), the embedding computes UTF-8 byte lengths
  (`str_len`) and models byte slices (`slice_bytes`), including the
  panic on a slice edge that is not a character boundary.
* The process-wide mutable color registry (a `HashMap<String, String>`
  behind a mutex) is passed explicitly as an association list
  `List (String × String)`; `HashMap::insert` (which overwrites) becomes
  consing the new binding in front, since `List.lookup` returns the most
  recent binding.  A failed/poisoned lock read behaves like a missing key,
  exactly as the `if let Ok(..)` fallbacks in the source do.
* Code that can panic is embedded as `Option`-returning: `none` models a
  panic.  `i64::abs` overflows on `i64::MIN`; with overflow checks enabled
  (the default for debug builds) that is a panic, and the embedding models
  that checked semantics.
* Loops whose index advances at least one character per iteration are
  embedded as structural recursion on a fuel argument; callers pass
  `length + 1` fuel, which is always sufficient, so the fuel-exhaustion
  branches are unreachable (the correctness lemmas carry a `length < fuel`
  hypothesis).
* `print!` accumulation is embedded by returning the emitted string.
-/

/-- 8-bit color channels; `cprint_imp.rs` struct `RGB` (fields are `u8`,
here `Nat`s that are ≤ 255 for every value the code constructs). -/
structure RGB where
  r : Nat
  g : Nat
  b : Nat
deriving DecidableEq, Repr

/-- Source struct `Fragment` of `cprint_imp.rs`: a parsed unit, `tag` is the empty
list for plain text (the Rust code uses the empty string the same way). -/
structure Fragment where
  tag : List Char
  text : List Char
deriving DecidableEq, Repr

/-- Method `RGB::gray()`: the neutral-gray fallback for an unresolved base color. -/
def RGB.gray : RGB := ⟨128, 128, 128⟩

/-- One decimal digit rendered as a character (digits 0–9). -/
def digitChar : Nat → Char
  | 0 => '0'
  | 1 => '1'
  | 2 => '2'
  | 3 => '3'
  | 4 => '4'
  | 5 => '5'
  | 6 => '6'
  | 7 => '7'
  | 8 => '8'
  | 9 => '9'
  | _ => '*'

/-- Decimal rendering of a `Nat`, most significant digit first (Rust's
`to_string`).  The recursion is on a fuel bound; `n` itself always
suffices because `n / 10 < n` for `n ≥ 10`. -/
def natDigitsAux : Nat → Nat → List Char
  | 0, _ => []
  | fuel + 1, n =>
    if n < 10 then [digitChar n]
    else natDigitsAux fuel (n / 10) ++ [digitChar (n % 10)]

/-- Decimal digit characters of `n`. -/
def natDigits (n : Nat) : List Char := natDigitsAux (n + 1) n

/-- Rust `{}` formatting (`Display`) of an `i64` value. -/
def intToString (n : Int) : String :=
  if n < 0 then String.mk ('-' :: natDigits n.natAbs) else String.mk (natDigits n.natAbs)

/-- Method `RGB::to_ansi`: `format!("\x1b[38;2;{};{};{}m", r, g, b)`.  The same
byte layout is produced by `ansi_rgb` in `cprintln.rs`. -/
def RGB.to_ansi (c : RGB) : List Char :=
  "\x1b[38;2;".data ++ natDigits c.r ++ ';' :: natDigits c.g ++ ';' :: natDigits c.b ++ ['m']

/-- The value of one hexadecimal digit, as `char::to_digit(16)` computes
it (`from_str_radix` accepts both letter cases). -/
def hexDigitVal (c : Char) : Option Nat :=
  if '0' ≤ c ∧ c ≤ '9' then some (c.toNat - '0'.toNat)
  else if 'a' ≤ c ∧ c ≤ 'f' then some (c.toNat - 'a'.toNat + 10)
  else if 'A' ≤ c ∧ c ≤ 'F' then some (c.toNat - 'A'.toNat + 10)
  else none

/-- Fold hexadecimal digit characters into a value; `none` on the first
non-digit. -/
def hexFold : List Char → Nat → Option Nat
  | [], acc => some acc
  | c :: cs, acc =>
    match hexDigitVal c with
    | some v => hexFold cs (16 * acc + v)
    | none => none

/-- Rust `u8::from_str_radix(s, 16)`: an optional `+`/`-` sign followed by at
least one hex digit; a negative result other than zero is out of the `u8`
range, as is anything above 255. -/
def u8_from_str_radix16 (s : List Char) : Option Nat :=
  let signed : Bool × List Char :=
    match s with
    | c :: rest => if c == '+' then (false, rest) else if c == '-' then (true, rest) else (false, s)
    | [] => (false, s)
  match signed with
  | (neg, ds) =>
    if ds.isEmpty then none
    else
      match hexFold ds 0 with
      | none => none
      | some v =>
        if neg then (if v = 0 then some 0 else none)
        else if v ≤ 255 then some v else none

/-- Rust `str::len` — the UTF-8 **byte** length of a string. -/
def str_len : List Char → Nat
  | [] => 0
  | c :: cs => c.utf8Size + str_len cs

/-- The characters covering the first `n` bytes of a string; `none` when
`n` is not a character boundary (or past the end) — the case where a Rust
byte slice ending at `n` panics. -/
def take_bytes : List Char → Nat → Option (List Char)
  | _, 0 => some []
  | [], _ + 1 => none
  | c :: cs, n + 1 =>
    if c.utf8Size ≤ n + 1 then (take_bytes cs (n + 1 - c.utf8Size)).map (c :: ·) else none

/-- The characters after the first `n` bytes; `none` when `n` is not a
character boundary (or past the end). -/
def drop_bytes : List Char → Nat → Option (List Char)
  | cs, 0 => some cs
  | [], _ + 1 => none
  | c :: cs, n + 1 =>
    if c.utf8Size ≤ n + 1 then drop_bytes cs (n + 1 - c.utf8Size) else none

/-- Rust byte slicing `&s[a..b]` (for `a ≤ b`); `none` models the panic
on a non-boundary edge. -/
def slice_bytes (cs : List Char) (a b : Nat) : Option (List Char) :=
  match drop_bytes cs a with
  | none => none
  | some rest => take_bytes rest (b - a)

/-- One color channel: `u8::from_str_radix(sl, 16).unwrap_or(d)`. -/
def hex_channel (sl : List Char) (d : Nat) : Nat := (u8_from_str_radix16 sl).getD d

/-- The `#`-stripping at the top of `parse_hex`: the `#` is removed only
from strings of total **byte** length 7 or 4 (Rust `hex.len()` counts
bytes); the slice `&hex[1..]` after a leading one-byte `#` is always
boundary-valid. -/
def strip_hash (cs : List Char) : List Char :=
  if (str_len cs = 7 ∨ str_len cs = 4) ∧ cs.head? = some '#' then cs.tail else cs

/-- Function `parse_hex` of `cprint_imp.rs`: after optional `#`-stripping,
match on the **byte** length — 3 bytes take the three one-byte slices,
each duplicated by `.repeat(2)`; 6 bytes take the three two-byte slices;
every channel whose hex parse fails falls back to 0 (`unwrap_or(0)`); any
other byte length gives `None`.  A byte slice whose edge is not a
character boundary panics: the outer `none` models that panic, and the
inner option is the function's Rust `Option<RGB>` result. -/
def parse_hex (hex : String) : Option (Option RGB) :=
  let cs := strip_hash hex.data
  if str_len cs = 3 then
    match slice_bytes cs 0 1, slice_bytes cs 1 2, slice_bytes cs 2 3 with
    | some s₁, some s₂, some s₃ =>
      some (some ⟨hex_channel (s₁ ++ s₁) 0, hex_channel (s₂ ++ s₂) 0, hex_channel (s₃ ++ s₃) 0⟩)
    | _, _, _ => none
  else if str_len cs = 6 then
    match slice_bytes cs 0 2, slice_bytes cs 2 4, slice_bytes cs 4 6 with
    | some s₁, some s₂, some s₃ =>
      some (some ⟨hex_channel s₁ 0, hex_channel s₂ 0, hex_channel s₃ 0⟩)
    | _, _, _ => none
  else some none

/-- Function `snowfall_color`: the semantic color constants. -/
def snowfall_color (name : String) : Option String :=
  match name with
  | "filename" | "filepath" => some "#f7cd43"
  | "number" | "digits" => some "#556fed"
  | _ => none

/-- Function `html_named_color` of `cprint_imp.rs`: the fixed named-HTML-color
table (note: the match is on the exact string, so only the lowercase
spellings listed here are recognized). -/
def html_named_color (name : String) : Option String :=
  match name with
  | "aliceblue" => some "#f0f8ff"
  | "antiquewhite" => some "#faebd7"
  | "aqua" => some "#00ffff"
  | "aquamarine" => some "#7fffd4"
  | "azure" => some "#f0ffff"
  | "beige" => some "#f5f5dc"
  | "bisque" => some "#ffe4c4"
  | "black" => some "#000000"
  | "blanchedalmond" => some "#ffebcd"
  | "blue" => some "#0000ff"
  | "blueviolet" => some "#8a2be2"
  | "brown" => some "#a52a2a"
  | "burlywood" => some "#deb887"
  | "cadetblue" => some "#5f9ea0"
  | "chartreuse" => some "#7fff00"
  | "chocolate" => some "#d2691e"
  | "coral" => some "#ff7f50"
  | "cornflowerblue" => some "#6495ed"
  | "cornsilk" => some "#fff8dc"
  | "crimson" => some "#dc143c"
  | "cyan" => some "#00ffff"
  | "darkblue" => some "#00008b"
  | "darkcyan" => some "#008b8b"
  | "darkgoldenrod" => some "#b8860b"
  | "darkgray" => some "#a9a9a9"
  | "darkgreen" => some "#006400"
  | "darkgrey" => some "#a9a9a9"
  | "darkkhaki" => some "#bdb76b"
  | "darkmagenta" => some "#8b008b"
  | "darkolivegreen" => some "#556b2f"
  | "darkorange" => some "#ff8c00"
  | "darkorchid" => some "#9932cc"
  | "darkred" => some "#8b0000"
  | "darksalmon" => some "#e9967a"
  | "darkseagreen" => some "#8fbc8f"
  | "darkslateblue" => some "#483d8b"
  | "darkslategray" => some "#2f4f4f"
  | "darkslategrey" => some "#2f4f4f"
  | "darkturquoise" => some "#00ced1"
  | "darkviolet" => some "#9400d3"
  | "deeppink" => some "#ff1493"
  | "deepskyblue" => some "#00bfff"
  | "dimgray" => some "#696969"
  | "dimgrey" => some "#696969"
  | "dodgerblue" => some "#1e90ff"
  | "firebrick" => some "#b22222"
  | "floralwhite" => some "#fffaf0"
  | "forestgreen" => some "#228b22"
  | "fuchsia" => some "#ff00ff"
  | "gainsboro" => some "#dcdcdc"
  | "ghostwhite" => some "#f8f8ff"
  | "gold" => some "#ffd700"
  | "goldenrod" => some "#daa520"
  | "gray" => some "#808080"
  | "green" => some "#008000"
  | "greenyellow" => some "#adff2f"
  | "grey" => some "#808080"
  | "honeydew" => some "#f0fff0"
  | "hotpink" => some "#ff69b4"
  | "indianred" => some "#cd5c5c"
  | "indigo" => some "#4b0082"
  | "ivory" => some "#fffff0"
  | "khaki" => some "#f0e68c"
  | "lavender" => some "#e6e6fa"
  | "lavenderblush" => some "#fff0f5"
  | "lawngreen" => some "#7cfc00"
  | "lemonchiffon" => some "#fffacd"
  | "lightblue" => some "#add8e6"
  | "lightcoral" => some "#f08080"
  | "lightcyan" => some "#e0ffff"
  | "lightgoldenrodyellow" => some "#fafad2"
  | "lightgray" => some "#d3d3d3"
  | "lightgreen" => some "#90ee90"
  | "lightgrey" => some "#d3d3d3"
  | "lightpink" => some "#ffb6c1"
  | "lightsalmon" => some "#ffa07a"
  | "lightseagreen" => some "#20b2aa"
  | "lightskyblue" => some "#87cefa"
  | "lightslategray" => some "#778899"
  | "lightslategrey" => some "#778899"
  | "lightsteelblue" => some "#b0c4de"
  | "lightyellow" => some "#ffffe0"
  | "lime" => some "#00ff00"
  | "limegreen" => some "#32cd32"
  | "linen" => some "#faf0e6"
  | "magenta" => some "#ff00ff"
  | "maroon" => some "#800000"
  | "mediumaquamarine" => some "#66cdaa"
  | "mediumblue" => some "#0000cd"
  | "mediumorchid" => some "#ba55d3"
  | "mediumpurple" => some "#9370db"
  | "mediumseagreen" => some "#3cb371"
  | "mediumslateblue" => some "#7b68ee"
  | "mediumspringgreen" => some "#00fa9a"
  | "mediumturquoise" => some "#48d1cc"
  | "mediumvioletred" => some "#c71585"
  | "midnightblue" => some "#191970"
  | "mintcream" => some "#f5fffa"
  | "mistyrose" => some "#ffe4e1"
  | "moccasin" => some "#ffe4b5"
  | "navajowhite" => some "#ffdead"
  | "navy" => some "#000080"
  | "oldlace" => some "#fdf5e6"
  | "olive" => some "#808000"
  | "olivedrab" => some "#6b8e23"
  | "orange" => some "#ffa500"
  | "orangered" => some "#ff4500"
  | "orchid" => some "#da70d6"
  | "palegoldenrod" => some "#eee8aa"
  | "palegreen" => some "#98fb98"
  | "paleturquoise" => some "#afeeee"
  | "palevioletred" => some "#db7093"
  | "papayawhip" => some "#ffefd5"
  | "peachpuff" => some "#ffdab9"
  | "peru" => some "#cd853f"
  | "pink" => some "#ffc0cb"
  | "plum" => some "#dda0dd"
  | "powderblue" => some "#b0e0e6"
  | "purple" => some "#800080"
  | "rebeccapurple" => some "#663399"
  | "red" => some "#ff0000"
  | "rosybrown" => some "#bc8f8f"
  | "royalblue" => some "#4169e1"
  | "saddlebrown" => some "#8b4513"
  | "salmon" => some "#fa8072"
  | "sandybrown" => some "#f4a460"
  | "seagreen" => some "#2e8b57"
  | "seashell" => some "#fff5ee"
  | "sienna" => some "#a0522d"
  | "silver" => some "#c0c0c0"
  | "skyblue" => some "#87ceeb"
  | "slateblue" => some "#6a5acd"
  | "slategray" => some "#708090"
  | "slategrey" => some "#708090"
  | "snow" => some "#fffafa"
  | "springgreen" => some "#00ff7f"
  | "steelblue" => some "#4682b4"
  | "tan" => some "#d2b48c"
  | "teal" => some "#008080"
  | "thistle" => some "#d8bfd8"
  | "tomato" => some "#ff6347"
  | "turquoise" => some "#40e0d0"
  | "violet" => some "#ee82ee"
  | "wheat" => some "#f5deb3"
  | "white" => some "#ffffff"
  | "whitesmoke" => some "#f5f5f5"
  | "yellow" => some "#ffff00"
  | "yellowgreen" => some "#9acd32"
  | _ => none

/-- The seed table of `ensure_custom_colors` (identical in
`cprint_imp.rs` and `cprintln.rs`), written out with the `,`-separated
keys of the source table already split (`"txt,text"`, `"opt,option"`) and
with the extra empty-string alias the loop inserts for the key `"text"`. -/
def default_colors : List (String × String) :=
  [("h1", "#fff"),
   ("txt", "#bbb"), ("text", "#bbb"), ("", "#bbb"),
   ("error", "#f00"),
   ("warn", "#ffea00"),
   ("key", "#4CF"),
   ("opt", "#78aeff"), ("option", "#78aeff"),
   ("filename", "#e0c16c"),
   ("command", "#dbd488"),
   ("success", "#32CD32"),
   ("success_dim", "#80ad80")]

/-- Function `cprint_add_color`: `HashMap::insert` overwrites; with an association
list, consing the new binding in front shadows any older one. -/
def cprint_add_color (reg : List (String × String)) (name value : String) :
    List (String × String) :=
  (name, value) :: reg

/-- Function `parse_color` of `cprint_imp.rs`: one registry substitution (a missing
key — or an unavailable lock — leaves the string unchanged), then the
named-HTML table, then the semantic constants, then literal hex.  As in
`parse_hex`, the outer option is completion (`none` = byte-boundary
slice panic) and the inner option the Rust `Option<RGB>` result. -/
def parse_color (reg : List (String × String)) (color : String) : Option (Option RGB) :=
  let resolved_color := (List.lookup color reg).getD color
  let hex :=
    match html_named_color resolved_color with
    | some h => h
    | none =>
      match snowfall_color resolved_color with
      | some h => h
      | none => resolved_color
  parse_hex hex

/-- Rust `Iterator::position` over characters (`chars[p..].iter().position(..)`). -/
def position (p : Char → Bool) : List Char → Option Nat
  | [] => none
  | c :: cs => if p c then some 0 else (position p cs).map (· + 1)

/-- The bracket-nesting scan of `parse_text`: starting just after an `[`
with nesting level `lvl`, the index of the `]` that brings the level to
zero (`none` when the string ends first). -/
def find_matching_close : List Char → Nat → Option Nat
  | [], _ => none
  | c :: cs, lvl =>
    if c == '[' then (find_matching_close cs (lvl + 1)).map (· + 1)
    else if c == ']' then
      (if lvl = 1 then some 0 else (find_matching_close cs (lvl - 1)).map (· + 1))
    else (find_matching_close cs lvl).map (· + 1)

/-- The scanning loop of `parse_text`, as recursion on the suffix of the
input that starts at `current_pos` (every slice the Rust loop takes is at
or after `current_pos`).  One iteration advances `current_pos` by at least
one character, so fuel `length + 1` is enough; the `0` case is
unreachable for such fuel.

Branches, in source order: no further `[` (flush the remainder); text
before the `[` becomes a plain fragment; no matching `]` (the rest is
literal, flushed by the post-loop code); a full `[text](tag)` emits a
tagged fragment and resumes after `)`; otherwise the `[` alone becomes a
literal one-character fragment and scanning resumes just after it. -/
def parse_loop : Nat → List Char → List Fragment
  | 0, _ => []
  | fuel + 1, cs =>
    match position (· == '[') cs with
    | none => if cs.isEmpty then [] else [⟨[], cs⟩]
    | some i =>
      match find_matching_close (cs.drop (i + 1)) 1 with
      | none => (if 0 < i then [⟨[], cs.take i⟩] else []) ++ [⟨[], cs.drop i⟩]
      | some j =>
        match (cs.drop (i + 1)).drop (j + 1) with
        | c :: rest₂ =>
          if c == '(' then
            match position (· == ')') rest₂ with
            | some k =>
              (if 0 < i then [⟨[], cs.take i⟩] else []) ++
                ⟨rest₂.take k, (cs.drop (i + 1)).take j⟩ :: parse_loop fuel (rest₂.drop (k + 1))
            | none =>
              (if 0 < i then [⟨[], cs.take i⟩] else []) ++
                ⟨[], ['[']⟩ :: parse_loop fuel (cs.drop (i + 1))
          else
            (if 0 < i then [⟨[], cs.take i⟩] else []) ++
              ⟨[], ['[']⟩ :: parse_loop fuel (cs.drop (i + 1))
        | [] =>
          (if 0 < i then [⟨[], cs.take i⟩] else []) ++
            ⟨[], ['[']⟩ :: parse_loop fuel (cs.drop (i + 1))

/-- Function `parse_text`: run the loop, then the final "no fragments but
non-empty input" fallback of the source (`s.is_empty()` on a `&str` is
emptiness of its characters). -/
def parse_text (s : String) : List Fragment :=
  let fragments := parse_loop (s.data.length + 1) s.data
  if fragments.isEmpty && !s.data.isEmpty then [⟨[], s.data⟩] else fragments

/-- Value of a decimal digit string (`c.toNat - 48` per character). -/
def digitsVal (ds : List Char) : Nat :=
  ds.foldl (fun a c => 10 * a + (c.toNat - 48)) 0

/-- The optional sign at the front of an integer literal. -/
def split_sign (cs : List Char) : Bool × List Char :=
  match cs with
  | c :: rest => if c == '+' then (false, rest) else if c == '-' then (true, rest) else (false, cs)
  | [] => (false, cs)

/-- Rust `s.parse::<i64>()`: optional sign, at least one decimal digit, value
within the `i64` range (a per-step overflow abort is equivalent to the
final range check, since the magnitude only grows). -/
def parse_i64 (s : String) : Option Int :=
  match split_sign s.data with
  | (neg, ds) =>
    if ds.isEmpty || !ds.all (·.isDigit) then none
    else
      let v : Int := if neg then -(digitsVal ds : Int) else (digitsVal ds : Int)
      if -(2 ^ 63) ≤ v ∧ v ≤ 2 ^ 63 - 1 then some v else none

/-- Rust `i64::abs`: overflows at `i64::MIN`; with overflow checks enabled
(debug builds) that is a panic, modelled as `none`. -/
def i64_abs (n : Int) : Option Nat :=
  if n = -(2 ^ 63) then none else some n.natAbs

/-- The comma-insertion loop of the `"number"` branch of `format_text`:
the input is the digit string already reversed, `k` is the `enumerate`
index, and a `,` is pushed before every character whose index is a
positive multiple of 3. -/
def add_commas_rev : List Char → Nat → List Char
  | [], _ => []
  | c :: cs, k =>
    (if 0 < k ∧ k % 3 = 0 then [','] else []) ++ c :: add_commas_rev cs (k + 1)

/-- The `"number"` branch of `format_text`: parse as `i64`, group the
digits of the absolute value by 3 with commas (building over the reversed
digit string and reversing back), re-attach the sign; on parse failure
return the text unchanged.  `none` models the `abs` overflow panic at
`i64::MIN`. -/
def format_number (s : String) : Option String :=
  match parse_i64 s with
  | some num =>
    (i64_abs num).map (fun m =>
      let num_str := natDigits m
      let formatted := (add_commas_rev num_str.reverse 0).reverse
      if num < 0 then String.mk ('-' :: formatted) else String.mk formatted)
  | none => some s

/-- Rust `str::starts_with`. -/
def starts_with : List Char → List Char → Bool
  | [], _ => true
  | _ :: _, [] => false
  | p :: ps, c :: cs => p == c && starts_with ps cs

/-- Function `format_text` of `cprint_imp.rs`.  The `"number"` branch is
`format_number`.  The `"filename"`/`"filepath"` branch resolves two
colors — `parse_hex("#ed552b").unwrap()` (always succeeds) and
`parse_color(tag).unwrap()`, whose `None` result is an unconditional
unwrap panic (`none` here, as is a panic inside `parse_color` itself) —
then abbreviates a leading current-directory or `$HOME`
profile of the text.  `cwd` is `none` when `std::env::current_dir()`
fails (the code then uses `""`); `home` is `none` when `$HOME` is unset.
Every other tag returns the text unchanged. -/
def format_text (reg : List (String × String)) (cwd home : Option String)
    (s : String) (tag : String) : Option String :=
  if tag == "number" then format_number s
  else if tag == "filename" || tag == "filepath" then
    match parse_hex "#ed552b" with
    | none => none
    | some none => none
    | some (some pre) =>
      match parse_color reg tag with
      | none => none
      | some none => none
      | some (some txt) =>
        let prefix_rgb := RGB.to_ansi pre
        let text_rgb := RGB.to_ansi txt
        let cwds := (cwd.getD "").data
        if !cwds.isEmpty && s.data ≠ cwds && starts_with cwds s.data then
          some (String.mk (prefix_rgb ++ '.' :: text_rgb ++ s.data.drop cwds.length))
        else
          match home with
          | some h =>
            if starts_with h.data s.data then
              some (String.mk (prefix_rgb ++ '~' :: text_rgb ++ s.data.drop h.data.length))
            else some s
          | none => some s
  else some s

/-- The full attribute reset of `cprint_imp.rs` (`const RESET`). -/
def RESET : String := "\x1b[0m"

/-- The body of the fragment loop of `cprint_imp` for one fragment:
plain text verbatim; a tagged fragment is semantically formatted (a
`none` is the formatter panicking), then either colored — followed by a
return to the base color — or, for an unresolvable tag, re-emitted in
literal `[text](tag)` form. -/
def render_fragment (reg : List (String × String)) (cwd home : Option String)
    (base : RGB) (f : Fragment) : Option (List Char) :=
  if f.tag.isEmpty then some f.text
  else
    match format_text reg cwd home (String.mk f.text) (String.mk f.tag) with
    | none => none
    | some text =>
      match parse_color reg (String.mk f.tag) with
      | none => none
      | some (some rgb) => some (RGB.to_ansi rgb ++ text.data ++ RGB.to_ansi base)
      | some none => some ('[' :: text.data ++ ']' :: '(' :: f.tag ++ [')'])

/-- Concatenated output of the fragment loop; `none` if any fragment
panics. -/
def render_fragments (reg : List (String × String)) (cwd home : Option String)
    (base : RGB) : List Fragment → Option (List Char)
  | [] => some []
  | f :: fs =>
    match render_fragment reg cwd home base f, render_fragments reg cwd home base fs with
    | some a, some b => some (a ++ b)
    | _, _ => none

/-- Function `cprint_imp` of `cprint_imp.rs`, as the byte string it prints:
the base color escape (neutral gray when the base tag does not resolve),
the rendered fragments, and the trailing full reset.  `none` models a
panic part-way through. -/
def cprint_imp (reg : List (String × String)) (cwd home : Option String)
    (color s : String) : Option String :=
  match parse_color reg color with
  | none => none
  | some base_res =>
    let base_color_rgb := match base_res with | some rgb => rgb | none => RGB.gray
    match render_fragments reg cwd home base_color_rgb (parse_text s) with
    | some body => some (String.mk (RGB.to_ansi base_color_rgb ++ body ++ RESET.data))
    | none => none

/-- The named-color match inside `parse_color` of `cprintln.rs`: a total
function — an unknown name passes through unchanged (`_ => color`). -/
def ln_named_color (color : String) : String :=
  match color with
  | "black" => "#000000"
  | "silver" => "#c0c0c0"
  | "gray" => "#808080"
  | "white" => "#ffffff"
  | "maroon" => "#800000"
  | "red" => "#ff0000"
  | "purple" => "#800080"
  | "fuchsia" => "#ff00ff"
  | "green" => "#008000"
  | "lime" => "#00ff00"
  | "olive" => "#808000"
  | "yellow" => "#ffff00"
  | "navy" => "#000080"
  | "blue" => "#0000ff"
  | "teal" => "#008080"
  | "aqua" => "#00ffff"
  | "orange" => "#ffa500"
  | "aliceblue" => "#f0f8ff"
  | "antiquewhite" => "#faebd7"
  | "aquamarine" => "#7fffd4"
  | "azure" => "#f0ffff"
  | "beige" => "#f5f5dc"
  | "bisque" => "#ffe4c4"
  | "blanchedalmond" => "#ffebcd"
  | "blueviolet" => "#8a2be2"
  | "brown" => "#a52a2a"
  | "burlywood" => "#deb887"
  | "cadetblue" => "#5f9ea0"
  | "chartreuse" => "#7fff00"
  | "chocolate" => "#d2691e"
  | "coral" => "#ff7f50"
  | "cornflowerblue" => "#6495ed"
  | "cornsilk" => "#fff8dc"
  | "crimson" => "#dc143c"
  | "cyan" => "#00ffff"
  | "darkblue" => "#00008b"
  | "darkcyan" => "#008b8b"
  | "darkgoldenrod" => "#b8860b"
  | "darkgray" => "#a9a9a9"
  | "darkgreen" => "#006400"
  | "darkgrey" => "#a9a9a9"
  | "darkkhaki" => "#bdb76b"
  | "darkmagenta" => "#8b008b"
  | "darkolivegreen" => "#556b2f"
  | "darkorange" => "#ff8c00"
  | "darkorchid" => "#9932cc"
  | "darkred" => "#8b0000"
  | "darksalmon" => "#e9967a"
  | "darkseagreen" => "#8fbc8f"
  | "darkslateblue" => "#483d8b"
  | "darkslategray" => "#2f4f4f"
  | "darkslategrey" => "#2f4f4f"
  | "darkturquoise" => "#00ced1"
  | "darkviolet" => "#9400d3"
  | "deeppink" => "#ff1493"
  | "deepskyblue" => "#00bfff"
  | "dimgray" => "#696969"
  | "dimgrey" => "#696969"
  | "dodgerblue" => "#1e90ff"
  | "firebrick" => "#b22222"
  | "floralwhite" => "#fffaf0"
  | "forestgreen" => "#228b22"
  | "gainsboro" => "#dcdcdc"
  | "ghostwhite" => "#f8f8ff"
  | "gold" => "#ffd700"
  | "goldenrod" => "#daa520"
  | "greenyellow" => "#adff2f"
  | "grey" => "#808080"
  | "honeydew" => "#f0fff0"
  | "hotpink" => "#ff69b4"
  | "indianred" => "#cd5c5c"
  | "indigo" => "#4b0082"
  | "ivory" => "#fffff0"
  | "khaki" => "#f0e68c"
  | "lavender" => "#e6e6fa"
  | "lavenderblush" => "#fff0f5"
  | "lawngreen" => "#7cfc00"
  | "lemonchiffon" => "#fffacd"
  | "lightblue" => "#add8e6"
  | "lightcoral" => "#f08080"
  | "lightcyan" => "#e0ffff"
  | "lightgoldenrodyellow" => "#fafad2"
  | "lightgray" => "#d3d3d3"
  | "lightgreen" => "#90ee90"
  | "lightgrey" => "#d3d3d3"
  | "lightpink" => "#ffb6c1"
  | "lightsalmon" => "#ffa07a"
  | "lightseagreen" => "#20b2aa"
  | "lightskyblue" => "#87cefa"
  | "lightslategray" => "#778899"
  | "lightslategrey" => "#778899"
  | "lightsteelblue" => "#b0c4de"
  | "lightyellow" => "#ffffe0"
  | "limegreen" => "#32cd32"
  | "linen" => "#faf0e6"
  | "magenta" => "#ff00ff"
  | "mediumaquamarine" => "#66cdaa"
  | "mediumblue" => "#0000cd"
  | "mediumorchid" => "#ba55d3"
  | "mediumpurple" => "#9370db"
  | "mediumseagreen" => "#3cb371"
  | "mediumslateblue" => "#7b68ee"
  | "mediumspringgreen" => "#00fa9a"
  | "mediumturquoise" => "#48d1cc"
  | "mediumvioletred" => "#c71585"
  | "midnightblue" => "#191970"
  | "mintcream" => "#f5fffa"
  | "mistyrose" => "#ffe4e1"
  | "moccasin" => "#ffe4b5"
  | "navajowhite" => "#ffdead"
  | "oldlace" => "#fdf5e6"
  | "olivedrab" => "#6b8e23"
  | "orangered" => "#ff4500"
  | "orchid" => "#da70d6"
  | "palegoldenrod" => "#eee8aa"
  | "palegreen" => "#98fb98"
  | "paleturquoise" => "#afeeee"
  | "palevioletred" => "#db7093"
  | "papayawhip" => "#ffefd5"
  | "peachpuff" => "#ffdab9"
  | "peru" => "#cd853f"
  | "pink" => "#ffc0cb"
  | "plum" => "#dda0dd"
  | "powderblue" => "#b0e0e6"
  | "rosybrown" => "#bc8f8f"
  | "royalblue" => "#4169e1"
  | "saddlebrown" => "#8b4513"
  | "salmon" => "#fa8072"
  | "sandybrown" => "#f4a460"
  | "seagreen" => "#2e8b57"
  | "seashell" => "#fff5ee"
  | "sienna" => "#a0522d"
  | "skyblue" => "#87ceeb"
  | "slateblue" => "#6a5acd"
  | "slategray" => "#708090"
  | "slategrey" => "#708090"
  | "snow" => "#fffafa"
  | "springgreen" => "#00ff7f"
  | "steelblue" => "#4682b4"
  | "tan" => "#d2b48c"
  | "thistle" => "#d8bfd8"
  | "tomato" => "#ff6347"
  | "turquoise" => "#40e0d0"
  | "violet" => "#ee82ee"
  | "wheat" => "#f5deb3"
  | "whitesmoke" => "#f5f5f5"
  | "yellowgreen" => "#9acd32"
  | "rebeccapurple" => "#663399"
  | _ => color

/-- Function `parse_color` of `cprintln.rs`: registry substitution, the
named table, then ASCII-lowercasing, `trim_start_matches('#')` (which
strips every leading `#`), and a match on the **byte** length of what is
left — 3 and 6 bytes take the same one- and two-byte slices as the other
variant, with per-channel fallbacks 255/200/100, and any other byte
length gives the fixed (200, 200, 200).  The function never returns a
Rust `None`, but its byte slices panic off character boundaries: `none`
models that panic. -/
def parse_color_ln (reg : List (String × String)) (color : String) : Option RGB :=
  let resolved_color := (List.lookup color reg).getD color
  let color₂ := ln_named_color resolved_color
  let lower := color₂.data.map Char.toLower
  let hexcs := lower.dropWhile (· == '#')
  if str_len hexcs = 3 then
    match slice_bytes hexcs 0 1, slice_bytes hexcs 1 2, slice_bytes hexcs 2 3 with
    | some s₁, some s₂, some s₃ =>
      some ⟨hex_channel (s₁ ++ s₁) 255, hex_channel (s₂ ++ s₂) 200, hex_channel (s₃ ++ s₃) 100⟩
    | _, _, _ => none
  else if str_len hexcs = 6 then
    match slice_bytes hexcs 0 2, slice_bytes hexcs 2 4, slice_bytes hexcs 4 6 with
    | some s₁, some s₂, some s₃ =>
      some ⟨hex_channel s₁ 255, hex_channel s₂ 200, hex_channel s₃ 100⟩
    | _, _, _ => none
  else some ⟨200, 200, 200⟩

/-- One attempted match of the regex `\\?\[([^\]]+)\]\(([^\)]+)\)` from
the position just after a `[`: the (non-empty, `]`-free) display text,
the (non-empty, `)`-free) tag, and the rest of the input after the `)`.
The character classes exclude the closing delimiters, so the greedy `+`
runs end exactly at the first `]`/`)` and the match is deterministic. -/
def try_tag (cs : List Char) : Option (List Char × List Char × List Char) :=
  let content := cs.takeWhile (· != ']')
  if content.isEmpty then none
  else
    match cs.dropWhile (· != ']') with
    | ']' :: '(' :: cs₂ =>
      let tag := cs₂.takeWhile (· != ')')
      if tag.isEmpty then none
      else
        match cs₂.dropWhile (· != ')') with
        | ')' :: rest => some (content, tag, rest)
        | _ => none
    | _ => none

/-- Constant `ANSI_RESET` of `cprintln.rs`: reset to default foreground — not the
full attribute reset `\x1b[0m` of the other variant. -/
def ANSI_RESET : String := "\x1b[39m"

/-- The `captures_iter` loop of `process_markdown`: scan left to right;
at a `\[` that heads a full match, re-emit the match without its
backslash; at a `[` that heads a full match, emit the tag's color escape
(whose resolution can panic — `none` propagates), the content, and the
base color escape; otherwise copy one character and continue.  An
iteration always consumes at least one character, so fuel `length + 1`
suffices. -/
def pm_loop (reg : List (String × String)) (base : RGB) :
    Nat → List Char → Option (List Char)
  | 0, _ => some []
  | _ + 1, [] => some []
  | fuel + 1, c :: rest =>
    if c == '\\' && rest.head? == some '[' then
      match try_tag rest.tail with
      | some (content, tag, after) =>
        (pm_loop reg base fuel after).map
          (fun out => '[' :: content ++ ']' :: '(' :: tag ++ ')' :: out)
      | none => (pm_loop reg base fuel rest).map ('\\' :: ·)
    else if c == '[' then
      match try_tag rest with
      | some (content, tag, after) =>
        match parse_color_ln reg (String.mk tag) with
        | none => none
        | some rgb =>
          (pm_loop reg base fuel after).map
            (fun out => RGB.to_ansi rgb ++ content ++ RGB.to_ansi base ++ out)
      | none => (pm_loop reg base fuel rest).map ('[' :: ·)
    else (pm_loop reg base fuel rest).map (c :: ·)

/-- Function `process_markdown` of `cprintln.rs` (`none` = a tag color
resolution panicked mid-scan). -/
def process_markdown (reg : List (String × String)) (text : List Char) (base : RGB) :
    Option (List Char) :=
  pm_loop reg base (text.length + 1) text

/-- Horizontal whitespace as trimmed by `cprint_imp` of `cprintln.rs`
(`|c: char| c == ' ' || c == '\t'`). -/
def isHWs (c : Char) : Bool := c == ' ' || c == '\t'

/-- Rust `msg.trim_end_matches(hws)` together with the held-aside tail
(`&msg[trimmed.len()..]`). -/
def split_trailing (cs : List Char) : List Char × List Char :=
  ((cs.reverse.dropWhile isHWs).reverse, (cs.reverse.takeWhile isHWs).reverse)

/-- Rust `msg.trim_start_matches(hws)` together with the held-aside head. -/
def split_leading (cs : List Char) : List Char × List Char :=
  (cs.dropWhile isHWs, cs.takeWhile isHWs)

/-- The whitespace handling at the top of `cprint_imp` in `cprintln.rs`:
trailing horizontal whitespace is always stripped and held aside; leading
whitespace only when the (already end-trimmed) text has no line break.
Result: `((core text, leading ws), trailing ws)`. -/
def ln_split (msg : List Char) : (List Char × List Char) × List Char :=
  let p₁ := split_trailing msg
  let p₂ := if !p₁.1.contains '\n' then split_leading p₁.1 else (p₁.1, [])
  (p₂, p₁.2)

/-- Function `cprint_imp` of `cprintln.rs`, as the byte string it prints:
resolve the base color first, then the whitespace split, and — only if
the remaining text is non-empty — print the leading whitespace, the base
color escape, the processed message, the trailing whitespace and
`ANSI_RESET`.  All of that output leaves in one final `print!`, so a
panic anywhere earlier (base color or a tag color hitting a byte-slice
boundary) emits nothing, exactly like an empty remainder. -/
def cprint_imp_ln (reg : List (String × String)) (color msg : String) : String :=
  match parse_color_ln reg color with
  | none => ""
  | some base_color =>
    let p := ln_split msg.data
    if p.1.1.isEmpty then ""
    else
      match process_markdown reg p.1.1 base_color with
      | none => ""
      | some processed =>
        String.mk (p.1.2 ++ RGB.to_ansi base_color ++ processed ++ p.2 ++ ANSI_RESET.data)

/-- Source file `to_comma_string.rs`: the comma-insertion loop over the forward digit
string — a `,` before every character at positive index `i` with
`(len - i) % 3 == 0`. -/
def add_commas_fwd : List Char → Nat → Nat → List Char
  | [], _, _ => []
  | c :: cs, i, len =>
    (if 0 < i ∧ (len - i) % 3 = 0 then [','] else []) ++ c :: add_commas_fwd cs (i + 1) len

/-- Function `to_comma_string` applied to an already-`Display`-rendered value:
split off one leading `-`, split at the first `.`, group the integer
part, re-attach fraction and sign. -/
def to_comma_string (s : String) : String :=
  let p :=
    match s.data with
    | c :: rest => if c == '-' then (true, rest) else (false, s.data)
    | [] => (false, s.data)
  match p with
  | (neg, s₂) =>
    let int_part := s₂.takeWhile (· != '.')
    let frac_part := if s₂.contains '.' then some ((s₂.dropWhile (· != '.')).drop 1) else none
    let res := add_commas_fwd int_part 0 int_part.length
    let res := res ++ (match frac_part with | some f => '.' :: f | none => [])
    if neg then String.mk ('-' :: res) else String.mk res

/-- Does the list begin with the empty-tag pattern `]()`? -/
def isEmptyTagHead : List Char → Bool
  | ']' :: '(' :: ')' :: _ => true
  | _ => false

/-- Does `]()` occur anywhere in the list?  This is the only bracket
shape on which the parser collapses a tagged span into plain text (the
tag between `(` and `)` is empty), losing the bracket characters. -/
def hasEmptyTag : List Char → Bool
  | [] => false
  | c :: cs => isEmptyTagHead (c :: cs) || hasEmptyTag cs

/-- Concatenate a per-fragment rendering over a fragment list. -/
def reconcat (f : Fragment → List Char) : List Fragment → List Char
  | [] => []
  | fr :: frs => f fr ++ reconcat f frs

/-- Reconstitute a fragment: plain text verbatim, a tagged fragment in
its literal `[text](tag)` form. -/
def frag_to_chars (fr : Fragment) : List Char :=
  if fr.tag.isEmpty then fr.text else '[' :: (fr.text ++ ']' :: '(' :: (fr.tag ++ [')']))

/-- The scanning loop applied to a character list with its canonical
(always sufficient) fuel; `parse_text s` is exactly `parse_chars s.data`
up to the trailing emptiness fallback. -/
def parse_chars (cs : List Char) : List Fragment := parse_loop (cs.length + 1) cs

/-- The round-trip reconstruction exactly as the spec words it: plain
fragments verbatim, and the literal `[text](tag)` form restored for every
tagged fragment whose tag does not resolve (only a tag whose resolution
completes with a color counts as resolved). -/
def frag_to_chars_spec (reg : List (String × String)) (fr : Fragment) : List Char :=
  if fr.tag.isEmpty then fr.text
  else
    match parse_color reg (String.mk fr.tag) with
    | some (some _) => fr.text
    | _ => '[' :: (fr.text ++ ']' :: '(' :: (fr.tag ++ [')']))

/-- The pure named/semantic/hex resolution chain of `parse_color`, with
no registry access: what a registered value is resolved against. -/
def resolve_value (v : String) : Option (Option RGB) :=
  parse_hex
    (match html_named_color v with
     | some h => h
     | none =>
       match snowfall_color v with
       | some h => h
       | none => v)

/-! ## Lemmas about the scanning helpers -/

theorem position_spec {p : Char → Bool} :
    ∀ {cs : List Char} {i : Nat}, position p cs = some i →
      i < cs.length ∧ ∃ c, p c = true ∧ cs.drop i = c :: cs.drop (i + 1) := by
  intro cs
  induction cs with
  | nil => intro i h; simp [position] at h
  | cons c cs ih =>
    intro i h
    by_cases hc : p c
    · simp [position, hc] at h
      subst h
      exact ⟨by simp, c, hc, by simp⟩
    · simp [position, hc] at h
      obtain ⟨i', hi', rfl⟩ := h
      obtain ⟨hlt, d, hd, hdrop⟩ := ih hi'
      exact ⟨by simpa using hlt, d, hd, by simpa using hdrop⟩

theorem find_matching_close_spec :
    ∀ {cs : List Char} {lvl j : Nat}, find_matching_close cs lvl = some j →
      j < cs.length ∧ cs.drop j = ']' :: cs.drop (j + 1) := by
  intro cs
  induction cs with
  | nil => intro lvl j h; simp [find_matching_close] at h
  | cons c cs ih =>
    intro lvl j h
    by_cases hob : c == '['
    · simp [find_matching_close, hob] at h
      obtain ⟨j', hj', rfl⟩ := h
      obtain ⟨hlt, hdrop⟩ := ih hj'
      exact ⟨by simpa using hlt, by simpa using hdrop⟩
    · by_cases hcb : c == ']'
      · by_cases hlv : lvl = 1
        · simp [find_matching_close, hob, hcb, hlv] at h
          subst h
          have hc : c = ']' := by simpa using hcb
          subst hc
          exact ⟨by simp, by simp⟩
        · simp [find_matching_close, hob, hcb, hlv] at h
          obtain ⟨j', hj', rfl⟩ := h
          obtain ⟨hlt, hdrop⟩ := ih hj'
          exact ⟨by simpa using hlt, by simpa using hdrop⟩
      · simp [find_matching_close, hob, hcb] at h
        obtain ⟨j', hj', rfl⟩ := h
        obtain ⟨hlt, hdrop⟩ := ih hj'
        exact ⟨by simpa using hlt, by simpa using hdrop⟩

/-! ## The parser round-trip -/

theorem reconcat_append (f : Fragment → List Char) :
    ∀ (a b : List Fragment), reconcat f (a ++ b) = reconcat f a ++ reconcat f b := by
  intro a b
  induction a with
  | nil => simp [reconcat]
  | cons fr a ih => simp [reconcat, ih]

theorem hasEmptyTag_cons {c : Char} {cs : List Char}
    (h : hasEmptyTag (c :: cs) = false) : hasEmptyTag cs = false := by
  simp [hasEmptyTag] at h
  exact h.2

theorem hasEmptyTag_drop :
    ∀ (m : Nat) {cs : List Char}, hasEmptyTag cs = false → hasEmptyTag (cs.drop m) = false := by
  intro m
  induction m with
  | zero => intro cs h; simpa using h
  | succ m ih =>
    intro cs h
    cases cs with
    | nil => simpa using h
    | cons c cs => exact ih (hasEmptyTag_cons h)

theorem hasEmptyTag_append (X Y : List Char) :
    hasEmptyTag (X ++ ']' :: '(' :: ')' :: Y) = true := by
  induction X with
  | nil => simp [hasEmptyTag, isEmptyTagHead]
  | cons c X ih => simp [hasEmptyTag, ih]

theorem reconcat_before (i : Nat) (cs : List Char) :
    reconcat frag_to_chars (if 0 < i then [⟨[], cs.take i⟩] else []) = cs.take i := by
  by_cases h : 0 < i
  · simp [reconcat, frag_to_chars, h]
  · simp [reconcat, h, show i = 0 by omega]

/-- Round-trip of the scanning loop: on input free of the empty-tag
pattern `]()`, reconstituting every fragment (bracket syntax restored for
tagged ones) and concatenating reproduces the input exactly. -/
theorem parse_loop_reconstruct :
    ∀ (fuel : Nat) (cs : List Char), cs.length < fuel → hasEmptyTag cs = false →
      reconcat frag_to_chars (parse_loop fuel cs) = cs := by
  intro fuel
  induction fuel with
  | zero => intro cs h _; exact absurd h (by omega)
  | succ fuel ih =>
    intro cs hlen het
    cases hpos : position (· == '[') cs with
    | none =>
      cases hcs : cs.isEmpty with
      | true =>
        simp only [parse_loop, hpos, hcs, if_true, reconcat]
        exact (List.isEmpty_iff.mp hcs).symm
      | false => simp [parse_loop, hpos, hcs, reconcat, frag_to_chars]
    | some i =>
      obtain ⟨hi, c, hc, hdropi⟩ := position_spec hpos
      have hcbr : c = '[' := by simpa using hc
      subst hcbr
      have hA : hasEmptyTag (cs.drop (i + 1)) = false := hasEmptyTag_drop _ het
      have hfall : reconcat frag_to_chars
          ((if 0 < i then [(⟨[], cs.take i⟩ : Fragment)] else []) ++
            ⟨[], ['[']⟩ :: parse_loop fuel (cs.drop (i + 1))) = cs := by
        rw [reconcat_append, reconcat_before]
        have hIH := ih (cs.drop (i + 1)) (by simp only [List.length_drop]; omega) hA
        simp only [reconcat, frag_to_chars, List.isEmpty_nil, if_true, reconcat,
          List.append_nil, hIH, List.singleton_append]
        rw [← hdropi]
        exact List.take_append_drop i cs
      cases hfmc : find_matching_close (cs.drop (i + 1)) 1 with
      | none =>
        simp only [parse_loop, hpos, hfmc]
        rw [reconcat_append, reconcat_before]
        simp only [reconcat, frag_to_chars, List.isEmpty_nil, if_true, List.append_nil]
        exact List.take_append_drop i cs
      | some j =>
        obtain ⟨hj, hdropj⟩ := find_matching_close_spec hfmc
        cases hAfter : (cs.drop (i + 1)).drop (j + 1) with
        | nil =>
          simp only [parse_loop, hpos, hfmc, hAfter]
          exact hfall
        | cons c₂ rest₂ =>
          by_cases hpar : c₂ = '('
          · subst hpar
            cases hk : position (· == ')') rest₂ with
            | none =>
              simp only [parse_loop, hpos, hfmc, hAfter, hk, beq_self_eq_true, if_true]
              exact hfall
            | some k =>
              obtain ⟨hk', c₃, hc₃, hdropk⟩ := position_spec hk
              have hc₃' : c₃ = ')' := by simpa using hc₃
              subst hc₃'
              have hAj1 : hasEmptyTag ((cs.drop (i + 1)).drop (j + 1)) = false :=
                hasEmptyTag_drop _ hA
              rw [hAfter] at hAj1
              have hR : hasEmptyTag rest₂ = false := hasEmptyTag_cons hAj1
              have hlen2 : cs.length - (i + 1 + (j + 1)) = rest₂.length + 1 := by
                have := congrArg List.length hAfter
                simpa [List.length_drop] using this
              have hk0 : k ≠ 0 := by
                intro h0
                subst h0
                have hr : rest₂ = ')' :: rest₂.drop 1 := by simpa using hdropk
                have hAj : hasEmptyTag ((cs.drop (i + 1)).drop j) = false :=
                  hasEmptyTag_drop _ hA
                rw [hdropj, hAfter, hr] at hAj
                have htrue := hasEmptyTag_append [] (rest₂.drop 1)
                simp only [List.nil_append] at htrue
                rw [htrue] at hAj
                cases hAj
              have htagne : (rest₂.take k).isEmpty = false := by
                cases htk : rest₂.take k with
                | nil =>
                  exfalso
                  have := congrArg List.length htk
                  simp only [List.length_take, List.length_nil] at this
                  omega
                | cons hd tl => simp
              have eR : rest₂ = rest₂.take k ++ ')' :: rest₂.drop (k + 1) := by
                conv_lhs => rw [← List.take_append_drop k rest₂]
                rw [hdropk]
              have eA : cs.drop (i + 1) =
                  (cs.drop (i + 1)).take j ++ ']' :: '(' ::
                    (rest₂.take k ++ ')' :: rest₂.drop (k + 1)) := by
                conv_lhs => rw [← List.take_append_drop j (cs.drop (i + 1))]
                rw [hdropj, hAfter, ← eR]
              have e1 : cs = cs.take i ++ '[' ::
                  ((cs.drop (i + 1)).take j ++ ']' :: '(' ::
                    (rest₂.take k ++ ')' :: rest₂.drop (k + 1))) := by
                conv_lhs => rw [← List.take_append_drop i cs]
                rw [hdropi, ← eA]
              have hIH := ih (rest₂.drop (k + 1))
                (by simp only [List.length_drop]; omega) (hasEmptyTag_drop _ hR)
              simp only [parse_loop, hpos, hfmc, hAfter, hk, beq_self_eq_true, if_true]
              rw [reconcat_append, reconcat_before]
              simp only [reconcat, frag_to_chars, htagne, if_false, List.append_nil, hIH]
              conv_rhs => rw [e1]
              simp [List.append_assoc]
          · have hpar' : (c₂ == '(') = false := by simp [hpar]
            simp only [parse_loop, hpos, hfmc, hAfter, hpar', if_false]
            exact hfall

theorem parse_loop_ne_nil (fuel : Nat) (cs : List Char) (h : cs ≠ []) :
    parse_loop (fuel + 1) cs ≠ [] := by
  have hcs : cs.isEmpty = false := by
    cases cs with
    | nil => exact absurd rfl h
    | cons c cs => rfl
  cases hpos : position (· == '[') cs with
  | none => simp [parse_loop, hpos, hcs]
  | some i =>
    cases hfmc : find_matching_close (cs.drop (i + 1)) 1 with
    | none => simp [parse_loop, hpos, hfmc]
    | some j =>
      cases hAfter : (cs.drop (i + 1)).drop (j + 1) with
      | nil => simp [parse_loop, hpos, hfmc, hAfter]
      | cons c₂ rest₂ =>
        by_cases hpar : c₂ = '('
        · subst hpar
          cases hk : position (· == ')') rest₂ with
          | none => simp [parse_loop, hpos, hfmc, hAfter, hk]
          | some k => simp [parse_loop, hpos, hfmc, hAfter, hk]
        · simp [parse_loop, hpos, hfmc, hAfter, show (c₂ == '(') = false by simp [hpar]]

theorem parse_text_eq_loop (s : String) :
    parse_text s = parse_loop (s.data.length + 1) s.data := by
  unfold parse_text
  cases hd : s.data with
  | nil => simp
  | cons c cs =>
    have hne := parse_loop_ne_nil (cs.length + 1) (c :: cs) (by simp)
    have hfalse : (parse_loop (cs.length + 1 + 1) (c :: cs)).isEmpty = false := by
      cases hp : parse_loop (cs.length + 1 + 1) (c :: cs) with
      | nil => exact absurd hp hne
      | cons f fs => rfl
    simp [List.length_cons, hfalse]

/-- Round-trip at the `parse_text` level. -/
theorem parse_text_reconstruct (s : String) (h : hasEmptyTag s.data = false) :
    reconcat frag_to_chars (parse_text s) = s.data := by
  rw [parse_text_eq_loop]
  exact parse_loop_reconstruct _ _ (by omega) h

theorem position_eq_none {p : Char → Bool} :
    ∀ {l : List Char}, (∀ c ∈ l, p c = false) → position p l = none := by
  intro l
  induction l with
  | nil => intro _; rfl
  | cons c l ih =>
    intro h
    simp [position, h c (by simp), ih (fun d hd => h d (by simp [hd]))]

theorem find_matching_close_clean :
    ∀ (u : List Char), '[' ∉ u → ']' ∉ u →
      ∀ (v : List Char), find_matching_close (u ++ ']' :: v) 1 = some u.length := by
  intro u
  induction u with
  | nil => intro _ _ v; simp [find_matching_close]
  | cons c u ih =>
    intro h₁ h₂ v
    have hc₁ : (c == '[') = false := by simp; intro h; exact h₁ (by simp [h])
    have hc₂ : (c == ']') = false := by simp; intro h; exact h₂ (by simp [h])
    simp [find_matching_close, hc₁, hc₂,
      ih (fun h => h₁ (by simp [h])) (fun h => h₂ (by simp [h]))]

/-- The fallback-bracket rule, in general: when the `[` opens a span
whose matching `]` is not followed by a well-formed `(tag)`, the parser
emits a literal one-character `"["` fragment and resumes scanning at the
character immediately after the `[`, i.e. the rest of the parse is the
parse of everything after the `[` (including the `]`). -/
theorem parse_chars_literal_bracket (u v : List Char)
    (h₁ : '[' ∉ u) (h₂ : ']' ∉ u)
    (h₃ : v.head? = some '(' → ')' ∉ v.tail) :
    parse_chars ('[' :: (u ++ ']' :: v)) = ⟨[], ['[']⟩ :: parse_chars (u ++ ']' :: v) := by
  unfold parse_chars
  have hpos : position (· == '[') ('[' :: (u ++ ']' :: v)) = some 0 := by simp [position]
  have hfmc := find_matching_close_clean u h₁ h₂ v
  have hdv : (u ++ ']' :: v).drop (u.length + 1) = v := by
    rw [← List.drop_drop, List.drop_left]
    rfl
  have hdrop1 : ('[' :: (u ++ ']' :: v)).drop (0 + 1) = u ++ ']' :: v := rfl
  cases v with
  | nil =>
    simp only [List.length_cons, parse_loop, hpos, hdrop1, hfmc, hdv]
    simp
  | cons c v' =>
    by_cases hc : c = '('
    · subst hc
      have hkp : position (· == ')') v' = none := by
        apply position_eq_none
        intro d hd
        simp only [beq_eq_false_iff_ne, ne_eq]
        intro he
        exact h₃ rfl (he ▸ hd)
      simp only [List.length_cons, parse_loop, hpos, hdrop1, hfmc, hdv, hkp,
        beq_self_eq_true, if_true]
      simp
    · have hc' : (c == '(') = false := by simp [hc]
      simp only [List.length_cons, parse_loop, hpos, hdrop1, hfmc, hdv, hc', if_false]
      simp

/-! ## Decimal digits and integer parse/print -/

theorem digitChar_isDigit {n : Nat} (h : n < 10) : (digitChar n).isDigit = true := by
  interval_cases n <;> decide

theorem digitChar_toNat {n : Nat} (h : n < 10) : (digitChar n).toNat = 48 + n := by
  interval_cases n <;> decide

theorem natDigitsAux_digits :
    ∀ (fuel n : Nat), n < fuel → ∀ c ∈ natDigitsAux fuel n, c.isDigit = true := by
  intro fuel
  induction fuel with
  | zero => intro n h; omega
  | succ fuel ih =>
    intro n h c hc
    by_cases h10 : n < 10
    · simp [natDigitsAux, h10] at hc
      subst hc
      exact digitChar_isDigit h10
    · have hdiv : n / 10 < fuel := by
        have := Nat.div_lt_self (show 0 < n by omega) (show 1 < 10 by omega)
        omega
      simp [natDigitsAux, h10] at hc
      rcases hc with h' | h'
      · exact ih (n / 10) hdiv c h'
      · subst h'
        exact digitChar_isDigit (Nat.mod_lt _ (by omega))

theorem natDigitsAux_ne_nil :
    ∀ (fuel n : Nat), n < fuel → natDigitsAux fuel n ≠ [] := by
  intro fuel
  induction fuel with
  | zero => intro n h; omega
  | succ fuel _ =>
    intro n h
    by_cases h10 : n < 10
    · simp [natDigitsAux, h10]
    · simp [natDigitsAux, h10]

theorem digitsVal_snoc (xs : List Char) (c : Char) :
    digitsVal (xs ++ [c]) = 10 * digitsVal xs + (c.toNat - 48) := by
  simp [digitsVal, List.foldl_append]

theorem natDigitsAux_val :
    ∀ (fuel n : Nat), n < fuel → digitsVal (natDigitsAux fuel n) = n := by
  intro fuel
  induction fuel with
  | zero => intro n h; omega
  | succ fuel ih =>
    intro n h
    by_cases h10 : n < 10
    · simp [natDigitsAux, h10, digitsVal, digitChar_toNat h10]
    · have hdiv : n / 10 < fuel := by
        have := Nat.div_lt_self (show 0 < n by omega) (show 1 < 10 by omega)
        omega
      have hmod : n % 10 < 10 := Nat.mod_lt _ (by omega)
      simp [natDigitsAux, h10, digitsVal_snoc, ih (n / 10) hdiv, digitChar_toNat hmod]
      omega

theorem natDigits_digits (n : Nat) : ∀ c ∈ natDigits n, c.isDigit = true :=
  natDigitsAux_digits (n + 1) n (by omega)

theorem natDigits_ne_nil (n : Nat) : natDigits n ≠ [] :=
  natDigitsAux_ne_nil (n + 1) n (by omega)

theorem natDigits_val (n : Nat) : digitsVal (natDigits n) = n :=
  natDigitsAux_val (n + 1) n (by omega)

/-- The parse/print round-trip for `i64`: parsing the `Display`
rendering of an in-range value gives the value back. -/
theorem parse_print_i64 (n : Int) (h₁ : -(2 ^ 63) ≤ n) (h₂ : n ≤ 2 ^ 63 - 1) :
    parse_i64 (intToString n) = some n := by
  by_cases hn : n < 0
  · have hdata : (intToString n).data = '-' :: natDigits n.natAbs := by
      simp [intToString, hn]
    have hsign : split_sign ((intToString n).data) = (true, natDigits n.natAbs) := by
      rw [hdata]; simp [split_sign]
    have hne : (natDigits n.natAbs).isEmpty = false := by
      cases hd : natDigits n.natAbs with
      | nil => exact absurd hd (natDigits_ne_nil _)
      | cons c cs => rfl
    have hall : (natDigits n.natAbs).all (·.isDigit) = true :=
      List.all_eq_true.mpr (fun c hc => natDigits_digits _ c hc)
    have habs : ((n.natAbs : Int)) = -n := Int.ofNat_natAbs_of_nonpos (by omega)
    simp only [parse_i64, hsign, hne, hall, Bool.not_true, Bool.or_false,
      Bool.false_eq_true, if_false, if_true, natDigits_val, habs, neg_neg]
    rw [if_pos (show -(2 ^ 63) ≤ n ∧ n ≤ 2 ^ 63 - 1 from ⟨h₁, by omega⟩)]
  · have hdata : (intToString n).data = natDigits n.natAbs := by
      simp [intToString, hn]
    cases hd : natDigits n.natAbs with
    | nil => exact absurd hd (natDigits_ne_nil _)
    | cons c ds =>
      have hcd : c.isDigit = true := natDigits_digits _ c (by rw [hd]; simp)
      have hc₁ : (c == '+') = false := by
        cases h : c == '+' with
        | true => rw [show c = '+' by simpa using h] at hcd; cases hcd
        | false => rfl
      have hc₂ : (c == '-') = false := by
        cases h : c == '-' with
        | true => rw [show c = '-' by simpa using h] at hcd; cases hcd
        | false => rfl
      have hsign : split_sign ((intToString n).data) = (false, c :: ds) := by
        rw [hdata, hd]; simp [split_sign, hc₁, hc₂]
      have hall : (c :: ds).all (·.isDigit) = true := by
        rw [← hd]
        exact List.all_eq_true.mpr (fun d hdm => natDigits_digits _ d hdm)
      have hval : digitsVal (c :: ds) = n.natAbs := by rw [← hd]; exact natDigits_val _
      have habs : ((n.natAbs : Int)) = n := Int.natAbs_of_nonneg (by omega)
      simp only [parse_i64, hsign, hall, Bool.not_true, Bool.or_false, List.isEmpty_cons,
        Bool.false_eq_true, if_false, if_true, hval, habs, Bool.false_or]
      rw [if_pos (show -(2 ^ 63) ≤ n ∧ n ≤ 2 ^ 63 - 1 from ⟨h₁, by omega⟩)]

/-! ## The two comma-grouping loops agree -/

theorem add_commas_rev_snoc (c : Char) :
    ∀ (ys : List Char) (k : Nat),
      add_commas_rev (ys ++ [c]) k =
        add_commas_rev ys k ++
          (if 0 < k + ys.length ∧ (k + ys.length) % 3 = 0 then [','] else []) ++ [c] := by
  intro ys
  induction ys with
  | nil => intro k; simp [add_commas_rev]
  | cons y ys ih =>
    intro k
    simp only [List.cons_append, add_commas_rev, List.append_eq]
    rw [ih (k + 1)]
    have e : k + (y :: ys).length = k + 1 + ys.length := by
      simp only [List.length_cons]; omega
    simp only [e]
    simp [List.append_assoc, show 0 < k + 1 + ys.length by omega]

theorem add_commas_fwd_shift :
    ∀ (cs : List Char) (i L : Nat), 0 < i →
      add_commas_fwd cs (i + 1) (L + 1) = add_commas_fwd cs i L := by
  intro cs
  induction cs with
  | nil => intro i L _; rfl
  | cons c cs ih =>
    intro i L hi
    have e : L + 1 - (i + 1) = L - i := by omega
    simp only [add_commas_fwd, e, ih (i + 1) L (by omega)]
    congr 1
    by_cases hX : (L - i) % 3 = 0
    · rw [if_pos ⟨by omega, hX⟩, if_pos ⟨hi, hX⟩]
    · rw [if_neg (by tauto), if_neg (by tauto)]

theorem add_commas_fwd_one (ds : List Char) :
    add_commas_fwd ds 1 (ds.length + 1) =
      (if 0 < ds.length ∧ ds.length % 3 = 0 then [','] else []) ++
        add_commas_fwd ds 0 ds.length := by
  cases ds with
  | nil => simp [add_commas_fwd]
  | cons d ds₂ =>
    simp only [add_commas_fwd, List.length_cons]
    have e₁ : ds₂.length + 1 + 1 - 1 = ds₂.length + 1 := by omega
    have e₂ : ds₂.length + 1 - 0 = ds₂.length + 1 := by omega
    simp only [e₁, e₂]
    rw [add_commas_fwd_shift ds₂ 1 (ds₂.length + 1) (by omega)]
    simp only [lt_self_iff_false, false_and, if_false, List.nil_append]
    congr 1
    by_cases hX : (ds₂.length + 1) % 3 = 0
    · rw [if_pos ⟨by omega, hX⟩, if_pos ⟨by omega, hX⟩]
    · rw [if_neg (by tauto), if_neg (by tauto)]

/-- The reversed-enumeration comma loop of `format_text`'s `"number"`
branch produces exactly the forward `(len - i) % 3` loop of
`to_comma_string`. -/
theorem rev_eq_fwd :
    ∀ (ds : List Char), (add_commas_rev ds.reverse 0).reverse = add_commas_fwd ds 0 ds.length := by
  intro ds
  induction ds with
  | nil => rfl
  | cons c ds ih =>
    rw [show (c :: ds).reverse = ds.reverse ++ [c] by simp, add_commas_rev_snoc c ds.reverse 0]
    simp only [List.length_reverse, Nat.zero_add, List.reverse_append, List.reverse_cons,
      List.reverse_nil, List.nil_append, ih]
    simp only [add_commas_fwd, List.length_cons]
    have e : ds.length + 1 - 0 = ds.length + 1 := by omega
    simp only [e]
    simp only [lt_self_iff_false, false_and, if_false, List.nil_append]
    rw [add_commas_fwd_one]
    by_cases h3 : 0 < ds.length ∧ ds.length % 3 = 0
    · simp [h3]
    · simp [h3]

theorem char_bne_of_digit {c a : Char} (hc : c.isDigit = true) (ha : a.isDigit = false) :
    (c != a) = true := by
  cases he : c == a with
  | true =>
    have : c = a := by simpa using he
    rw [this] at hc
    rw [hc] at ha
    cases ha
  | false => simp [bne, he]

theorem takeWhile_all {p : Char → Bool} :
    ∀ {l : List Char}, (∀ c ∈ l, p c = true) → l.takeWhile p = l := by
  intro l
  induction l with
  | nil => intro _; rfl
  | cons c cs ih =>
    intro h
    simp [List.takeWhile_cons, h c (by simp), ih (fun d hd => h d (by simp [hd]))]

theorem contains_dot_false :
    ∀ {l : List Char}, (∀ c ∈ l, c.isDigit = true) → l.contains '.' = false := by
  intro l
  induction l with
  | nil => intro _; rfl
  | cons c cs ih =>
    intro h
    have hc := h c (by simp)
    have hne : ('.' == c) = false := by
      cases he : '.' == c with
      | true =>
        have : '.' = c := by simpa using he
        rw [← this] at hc
        cases hc
      | false => rfl
    simp [List.contains, List.elem, hne]
    have := ih (fun d hd => h d (by simp [hd]))
    simpa [List.contains, List.elem] using this

/-- The grouped rendering `format_number` produces, characterized with
the forward `(len - i) % 3` grouping: sign bar outside, digits of the
absolute value grouped by threes from the least significant digit. -/
theorem format_number_grouping (s : String) (n : Int)
    (hp : parse_i64 s = some n) (hmin : n ≠ -(2 ^ 63)) :
    format_number s = some (String.mk
      ((if n < 0 then ['-'] else []) ++
        add_commas_fwd (natDigits n.natAbs) 0 (natDigits n.natAbs).length)) := by
  simp only [format_number, hp, i64_abs, hmin, if_false, Option.map_some, rev_eq_fwd]
  by_cases hn : n < 0
  · simp [hn]
  · simp [hn]

theorem format_number_of_parse_fail (s : String) (hp : parse_i64 s = none) :
    format_number s = some s := by
  simp [format_number, hp]

/-- On the decimal rendering of an in-range `i64` other than `i64::MIN`,
the `"number"` semantic format and `to_comma_string` agree. -/
theorem format_number_eq_to_comma (n : Int)
    (h₁ : -(2 ^ 63) ≤ n) (h₂ : n ≤ 2 ^ 63 - 1) (h₃ : n ≠ -(2 ^ 63)) :
    format_number (intToString n) = some (to_comma_string (intToString n)) := by
  rw [format_number_grouping (intToString n) n (parse_print_i64 n h₁ h₂) h₃]
  have hdig := natDigits_digits n.natAbs
  have htw : (natDigits n.natAbs).takeWhile (· != '.') = natDigits n.natAbs :=
    takeWhile_all (fun c hc => char_bne_of_digit (hdig c hc) (by decide))
  have hct : (natDigits n.natAbs).contains '.' = false := contains_dot_false hdig
  by_cases hn : n < 0
  · have hdata : (intToString n).data = '-' :: natDigits n.natAbs := by
      simp [intToString, hn]
    simp only [to_comma_string, hdata]
    simp only [show ('-' == '-') = true from rfl, if_true, htw, hct, Bool.false_eq_true,
      if_false, if_true]
    simp [hn]
  · have hdata : (intToString n).data = natDigits n.natAbs := by
      simp [intToString, hn]
    cases hd : natDigits n.natAbs with
    | nil => exact absurd hd (natDigits_ne_nil _)
    | cons c ds =>
      have hcd : c.isDigit = true := hdig c (by rw [hd]; simp)
      have hcm : (c == '-') = false := by
        cases he : c == '-' with
        | true =>
          have : c = '-' := by simpa using he
          rw [this] at hcd
          cases hcd
        | false => rfl
      simp only [to_comma_string, hdata, hd, hcm, Bool.false_eq_true, if_false]
      rw [← hd, htw, hct]
      simp [hn, hd]

/-! ## `process_markdown` and whitespace splitting -/

theorem pm_loop_id :
    ∀ (fuel : Nat) (cs : List Char), cs.length < fuel → '[' ∉ cs →
      ∀ (reg : List (String × String)) (base : RGB), pm_loop reg base fuel cs = some cs := by
  intro fuel
  induction fuel with
  | zero => intro cs h _ _ _; exact absurd h (by omega)
  | succ fuel ih =>
    intro cs hlen hmem reg base
    cases cs with
    | nil => rfl
    | cons c rest =>
      have hc : c ≠ '[' := fun h => hmem (by simp [h])
      have hrest : '[' ∉ rest := fun h => hmem (by simp [h])
      have hh : (rest.head? == some '[') = false := by
        cases rest with
        | nil => rfl
        | cons d rest' =>
          have hd : d ≠ '[' := fun h => hrest (by simp [h])
          simp [hd]
      have hc' : (c == '[') = false := by simp [hc]
      have hlen' : rest.length < fuel := by
        simp only [List.length_cons] at hlen
        omega
      simp [pm_loop, hh, hc', Bool.and_false, ih rest hlen' hrest reg base]

theorem process_markdown_id (reg : List (String × String)) (cs : List Char)
    (h : '[' ∉ cs) (base : RGB) : process_markdown reg cs base = some cs :=
  pm_loop_id (cs.length + 1) cs (by omega) h reg base

theorem split_trailing_append (cs : List Char) :
    (split_trailing cs).1 ++ (split_trailing cs).2 = cs := by
  show (cs.reverse.dropWhile isHWs).reverse ++ (cs.reverse.takeWhile isHWs).reverse = cs
  rw [← List.reverse_append, List.takeWhile_append_dropWhile, List.reverse_reverse]

theorem split_leading_append (cs : List Char) :
    (split_leading cs).2 ++ (split_leading cs).1 = cs := by
  simp [split_leading, List.takeWhile_append_dropWhile]

theorem not_mem_split_trailing {a : Char} {cs : List Char} (h : a ∉ cs) :
    a ∉ (split_trailing cs).1 := by
  intro hmem
  apply h
  have h₁ : a ∈ cs.reverse.dropWhile isHWs := by
    simpa [split_trailing] using hmem
  exact List.mem_reverse.mp ((List.dropWhile_sublist isHWs).subset h₁)

theorem not_mem_split_leading {a : Char} {cs : List Char} (h : a ∉ cs) :
    a ∉ (split_leading cs).1 := by
  intro hmem
  exact h ((List.dropWhile_sublist isHWs).subset hmem)

theorem ln_split_append (msg : List Char) :
    (ln_split msg).1.2 ++ (ln_split msg).1.1 ++ (ln_split msg).2 = msg := by
  simp only [ln_split]
  split
  · rw [split_leading_append, split_trailing_append]
  · simp [split_trailing_append]

theorem ln_split_no_bracket {msg : List Char} (h : '[' ∉ msg) :
    '[' ∉ (ln_split msg).1.1 := by
  simp only [ln_split]
  split
  · exact not_mem_split_leading (not_mem_split_trailing h)
  · exact not_mem_split_trailing h

/-! ## The spec-side fragment reconstruction (resolution-aware) -/

theorem reconcat_spec_eq (reg : List (String × String)) :
    ∀ (frs : List Fragment),
      (∀ f ∈ frs, f.tag.isEmpty = false → parse_color reg (String.mk f.tag) = some none) →
      reconcat (frag_to_chars_spec reg) frs = reconcat frag_to_chars frs := by
  intro frs
  induction frs with
  | nil => intro _; rfl
  | cons f frs ih =>
    intro h
    have hf : frag_to_chars_spec reg f = frag_to_chars f := by
      cases hemp : f.tag.isEmpty with
      | true => simp [frag_to_chars_spec, frag_to_chars, hemp]
      | false => simp [frag_to_chars_spec, frag_to_chars, hemp, h f (by simp) hemp]
    simp [reconcat, hf, ih (fun g hg => h g (by simp [hg]))]

/-! ## Claim theorems -/

/-- C1: the spec claims a render call never panics, but the code can
panic, so this records the failure: (a) after
`register_color("filename", "oops!")` rebinds the `"filename"` alias to a
string that resolves to no color, rendering a fragment tagged
`"filename"` reaches `parse_color(tag).unwrap()` inside `format_text` on
a `None` — a panic, modelled as `none` — whatever the current directory
or `$HOME` are; (b) a fragment tagged `"number"` with text
`"-9223372036854775808"` (`i64::MIN`) parses successfully and then
`num.abs()` overflows — a panic under the overflow checks that debug
builds enable. -/
theorem c1_render_panics :
    (∀ cwd home : Option String,
      cprint_imp (cprint_add_color default_colors "filename" "oops!") cwd home
        "text" "[a.txt](filename)" = none) ∧
    cprint_imp default_colors none none "text" "[-9223372036854775808](number)" = none := by
  exact ⟨fun cwd home => rfl, by decide⟩

/-- C2, counterexample: on `"[x]()"` the parser produces the single
fragment `⟨tag := "", text := "x"⟩`; no fragment carries a non-empty
(resolvable or not) tag, yet the spec's reconstruction gives `"x"`, not
`"[x]()"` — the empty-tag span collapses and the round-trip fails. -/
theorem c2_roundtrip_cex :
    (∀ f ∈ parse_text "[x]()", f.tag.isEmpty = false →
      parse_color default_colors (String.mk f.tag) = some none) ∧
    reconcat (frag_to_chars_spec default_colors) (parse_text "[x]()") ≠ "[x]()".data := by
  decide

/-- C2, amended: the round-trip holds for every input that contains no
resolvable tags *and no occurrence of the empty-tag syntax `]()`*:
concatenating fragment texts, restoring `[text](tag)` for every
unresolved tagged fragment, reproduces the input exactly. -/
theorem c2_roundtrip (s : String) (h₁ : hasEmptyTag s.data = false)
    (h₂ : ∀ f ∈ parse_text s, f.tag.isEmpty = false →
      parse_color default_colors (String.mk f.tag) = some none) :
    reconcat (frag_to_chars_spec default_colors) (parse_text s) = s.data := by
  rw [reconcat_spec_eq default_colors _ h₂]
  exact parse_text_reconstruct s h₁

theorem c2_roundtrip_witness :
    reconcat (frag_to_chars_spec default_colors) (parse_text "[x](zz)") = "[x](zz)".data :=
  c2_roundtrip "[x](zz)" (by decide) (by decide)

/-- C3, counterexample: `"zzz"` and `"notahx"` are 3- and 6-byte strings
with non-hex characters, yet resolution does **not** return `None`: each
failed channel falls back to 0 (`unwrap_or(0)`), so both resolve to
black. -/
theorem c3_resolution_cex :
    parse_color default_colors "zzz" ≠ some none ∧
    parse_color default_colors "zzz" = some (some ⟨0, 0, 0⟩) ∧
    parse_color default_colors "notahx" = some (some ⟨0, 0, 0⟩) := by
  decide

/-- C3, amended: resolution completes with `None` exactly on *byte
length* failure — a tag that (after the single registry substitution) is
neither a named color nor a semantic constant and whose `#`-stripped
form has UTF-8 byte length other than 3 and 6 resolves to `None`.  A 3-
or 6-byte string with non-hex characters does not fail: each channel
whose two-hex-digit parse fails is replaced by 0 when its byte slice
lands on character boundaries (`"zzz"` and `"notahx"` give RGB(0,0,0),
`"éaaé"` — 4 characters but 6 bytes — gives RGB(0,170,0)), and the call
panics on the slice when a boundary is missed (`"éz"`: 3 bytes split
2+1, so `&hex[0..1]` panics). -/
theorem c3_resolution_amended :
    (∀ s : String, List.lookup s default_colors = none → html_named_color s = none →
      snowfall_color s = none → str_len (strip_hash s.data) ≠ 3 →
      str_len (strip_hash s.data) ≠ 6 → parse_color default_colors s = some none) ∧
    parse_color default_colors "zzz" = some (some ⟨0, 0, 0⟩) ∧
    parse_color default_colors "notahx" = some (some ⟨0, 0, 0⟩) ∧
    parse_color default_colors "éaaé" = some (some ⟨0, 170, 0⟩) ∧
    parse_color default_colors "éz" = none := by
  refine ⟨?_, by decide, by decide, by decide, by decide⟩
  intro s h₁ h₂ h₃ h₄ h₅
  simp only [parse_color, h₁, Option.getD_none, h₂, h₃, parse_hex]
  rw [if_neg h₄, if_neg h₅]

theorem c3_resolution_witness : parse_color default_colors "hello" = some none :=
  c3_resolution_amended.1 "hello" (by decide) (by decide) (by decide) (by decide) (by decide)

/-- C4, counterexample: named-color matching is not case-insensitive —
`"Red"` resolves differently from `"red"`. -/
theorem c4_case_cex :
    parse_color default_colors "Red" ≠ parse_color default_colors "red" := by
  decide

/-- C4, amended: the named-HTML-color match is an exact, case-sensitive
match on the lowercase spellings; any other casing falls through to hex
parsing, where the failed channels become 0 — so `"red"` gives
RGB(255,0,0) but `"Red"` and `"RED"` both give RGB(0,238,221). -/
theorem c4_case_amended :
    html_named_color "red" = some "#ff0000" ∧
    html_named_color "Red" = none ∧
    html_named_color "RED" = none ∧
    parse_color default_colors "red" = some (some ⟨255, 0, 0⟩) ∧
    parse_color default_colors "Red" = some (some ⟨0, 238, 221⟩) ∧
    parse_color default_colors "RED" = some (some ⟨0, 238, 221⟩) := by
  decide

/-- C5: alias indirection is exactly one level deep — after
`register_color(name, value)`, resolving `name` substitutes `value` once
and resolves it only against the named/semantic/hex chain
(`resolve_value`), never against the registry again.  In particular
`register_color("oops", "red")` makes `"oops"` resolve to RGB(255,0,0),
and `register_color("a", "error")` (where `"error"` is only a registry
alias) leaves `"a"` unresolvable (resolution completes with `None`). -/
theorem c5_alias_one_level :
    (∀ (reg : List (String × String)) (name value : String),
      parse_color (cprint_add_color reg name value) name = resolve_value value) ∧
    parse_color (cprint_add_color default_colors "oops" "red") "oops" =
      some (some ⟨255, 0, 0⟩) ∧
    parse_color (cprint_add_color default_colors "a" "error") "a" = some none := by
  refine ⟨?_, by decide, by decide⟩
  intro reg name value
  simp [parse_color, cprint_add_color, resolve_value, List.lookup]

theorem cprint_reset_shape (b : RGB) (body : List Char) :
    String.mk (RGB.to_ansi b ++ body ++ RESET.data) ≠ "" ∧
      ∃ pre : List Char,
        (String.mk (RGB.to_ansi b ++ body ++ RESET.data)).data = pre ++ RESET.data := by
  constructor
  · intro he
    have hd := congrArg String.data he
    simp only [String.data] at hd
    rw [List.append_eq_nil] at hd
    exact absurd hd.2 (by decide)
  · exact ⟨_ ++ body, rfl⟩

/-- C6, counterexample: the claim covers both renderers, but the
`cprintln.rs` variant emits *nothing at all* for an empty format string —
the output is neither non-empty nor reset-terminated — and when it does
emit, it ends with `"\x1b[39m"` (reset foreground), not the full
attribute reset `"\x1b[0m"`. -/
theorem c6_reset_cex :
    cprint_imp_ln default_colors "red" "" = "" ∧
    cprint_imp_ln default_colors "red" "hi" = "\x1b[38;2;255;0;0mhi\x1b[39m" := by
  decide

/-- C6, amended, per variant: every completed render of the
`snowfall_core` `cprint_imp` is non-empty and carries the full reset
`"\x1b[0m"` as a suffix (the reset can also occur earlier when the input
itself contains those bytes, so "exactly once" does not hold in general);
the `cprintln.rs` variant either emits nothing or emits a string carrying
its own reset `"\x1b[39m"` as a suffix. -/
theorem c6_reset_amended :
    (∀ (reg : List (String × String)) (cwd home : Option String) (color s out : String),
      cprint_imp reg cwd home color s = some out →
        out ≠ "" ∧ ∃ pre : List Char, out.data = pre ++ RESET.data) ∧
    (∀ (reg : List (String × String)) (color msg : String),
      cprint_imp_ln reg color msg = "" ∨
        ∃ pre : List Char, (cprint_imp_ln reg color msg).data = pre ++ ANSI_RESET.data) := by
  constructor
  · intro reg cwd home color s out h
    simp only [cprint_imp] at h
    cases hpc : parse_color reg color with
    | none => rw [hpc] at h; cases h
    | some base_res =>
      rw [hpc] at h
      cases base_res with
      | none =>
        dsimp only at h
        cases hrf : render_fragments reg cwd home RGB.gray (parse_text s) with
        | none => rw [hrf] at h; cases h
        | some body =>
          rw [hrf] at h
          dsimp only at h
          have hout := (Option.some.inj h).symm
          subst hout
          exact cprint_reset_shape RGB.gray body
      | some rgb =>
        dsimp only at h
        cases hrf : render_fragments reg cwd home rgb (parse_text s) with
        | none => rw [hrf] at h; cases h
        | some body =>
          rw [hrf] at h
          dsimp only at h
          have hout := (Option.some.inj h).symm
          subst hout
          exact cprint_reset_shape rgb body
  · intro reg color msg
    simp only [cprint_imp_ln]
    cases hpc : parse_color_ln reg color with
    | none => left; rfl
    | some base =>
      cases hemp : ((ln_split msg.data).1.1).isEmpty with
      | true =>
        left
        simp [hemp]
      | false =>
        cases hpm : process_markdown reg (ln_split msg.data).1.1 base with
        | none =>
          left
          simp [hemp, hpm]
        | some processed =>
          right
          refine ⟨(ln_split msg.data).1.2 ++ RGB.to_ansi base ++ processed ++
            (ln_split msg.data).2, ?_⟩
          simp [hemp, hpm, List.append_assoc]

theorem c6_reset_witness :
    ("\x1b[38;2;255;0;0mhi\x1b[0m" : String) ≠ "" ∧
      ∃ pre : List Char, ("\x1b[38;2;255;0;0mhi\x1b[0m" : String).data = pre ++ RESET.data :=
  c6_reset_amended.1 default_colors none none "red" "hi" "\x1b[38;2;255;0;0mhi\x1b[0m"
    (by decide)

/-- C7: the fallback-bracket rule.  Generally: when a `[` opens a span
with a matching `]` (no nested brackets in between here) that is not
followed by a parenthesized tag — either the next character is not `(`,
or no `)` ever closes it — the parser emits the one-character plain
fragment `"["` and resumes at the character right after the `[`, so the
rest of the parse is the parse of everything after the `[` (including
the `]`).  In particular `"[x] rest"` parses to the plain fragments
`"["` and `"x] rest"`, in that order. -/
theorem c7_fallback :
    (∀ (u v : List Char), '[' ∉ u → ']' ∉ u → (v.head? = some '(' → ')' ∉ v.tail) →
      parse_chars ('[' :: (u ++ ']' :: v)) = ⟨[], ['[']⟩ :: parse_chars (u ++ ']' :: v)) ∧
    parse_text "[x] rest" = [⟨[], "[".data⟩, ⟨[], "x] rest".data⟩] := by
  exact ⟨parse_chars_literal_bracket, by decide⟩

theorem c7_fallback_witness :
    parse_chars ('[' :: ("x".data ++ ']' :: " rest".data)) =
      ⟨[], ['[']⟩ :: parse_chars ("x".data ++ ']' :: " rest".data) :=
  c7_fallback.1 "x".data " rest".data (by decide) (by decide) (by decide)

/-- C8, counterexample: `"-9223372036854775808"` (`i64::MIN`) parses as a
base-10 signed integer, but the `"number"` format does not return the
grouped string `"-9,223,372,036,854,775,808"` — `num.abs()` overflows
(a panic under debug overflow checks, modelled as `none`). -/
theorem c8_number_cex :
    format_number "-9223372036854775808" ≠ some "-9,223,372,036,854,775,808" ∧
    format_number "-9223372036854775808" = none := by
  decide

/-- C8, amended: for every text that parses as an `i64` *other than
`i64::MIN`*, the `"number"` format returns the digits of the absolute
value grouped in threes from the least-significant digit with comma
separators and the sign kept outside the grouped digits (stated with the
independent forward `(len - i) % 3` grouping); every text that does not
parse as an `i64` is returned unchanged. -/
theorem c8_number_amended :
    (∀ s : String, parse_i64 s = none → format_number s = some s) ∧
    (∀ (s : String) (n : Int), parse_i64 s = some n → n ≠ -(2 ^ 63) →
      format_number s = some (String.mk
        ((if n < 0 then ['-'] else []) ++
          add_commas_fwd (natDigits n.natAbs) 0 (natDigits n.natAbs).length))) ∧
    format_number "-1234567" = some "-1,234,567" ∧
    format_number "9876543210" = some "9,876,543,210" ∧
    format_number "0.1" = some "0.1" := by
  exact ⟨format_number_of_parse_fail, format_number_grouping, by decide, by decide, by decide⟩

theorem c8_number_witness :
    format_number "x0.1" = some "x0.1" ∧
      format_number "-1000" = some (String.mk
        ((if (-1000 : Int) < 0 then ['-'] else []) ++
          add_commas_fwd (natDigits (-1000 : Int).natAbs) 0
            (natDigits (-1000 : Int).natAbs).length)) :=
  ⟨c8_number_amended.1 "x0.1" (by decide),
   c8_number_amended.2.1 "-1000" (-1000) (by decide) (by decide)⟩

/-- C9, counterexample: (a) for `"a\nb "` — which contains a line break —
the trailing space *is* stripped and held aside (the claim says neither
side is stripped when a line break is present); (b) whitespace content is
not always preserved: a whitespace-only message produces empty output,
dropping the whitespace entirely. -/
theorem c9_whitespace_cex :
    ("a\nb ".data.contains '\n' = true ∧ (split_trailing "a\nb ".data).2 = [' ']) ∧
    cprint_imp_ln default_colors "red" " " = "" := by
  decide

/-- C9, amended: trailing spaces/tabs are always stripped and held aside
(line break or not); leading ones only when the end-trimmed text has no
line break; for tag-free input, when the base color resolves without
panicking and the remaining core is non-empty, the held-aside whitespace
is re-emitted around the colored core — leading before the color escape,
trailing after the core but before the reset — so the whitespace content
is preserved; when the core is empty, or the base color string itself
panics resolution on a byte-boundary slice, nothing at all is emitted
(the call's single `print!` is never reached). -/
theorem c9_whitespace_amended (reg : List (String × String)) (color msg : String)
    (h : '[' ∉ msg.data) :
    (parse_color_ln reg color = none ∧ cprint_imp_ln reg color msg = "") ∨
    ((ln_split msg.data).1.1 = [] ∧ cprint_imp_ln reg color msg = "") ∨
    (∃ base : RGB, parse_color_ln reg color = some base ∧
      cprint_imp_ln reg color msg = String.mk ((ln_split msg.data).1.2 ++
        RGB.to_ansi base ++ (ln_split msg.data).1.1 ++
        (ln_split msg.data).2 ++ ANSI_RESET.data) ∧
      (ln_split msg.data).1.2 ++ (ln_split msg.data).1.1 ++ (ln_split msg.data).2 =
        msg.data) := by
  cases hpc : parse_color_ln reg color with
  | none => exact Or.inl ⟨rfl, by simp [cprint_imp_ln, hpc]⟩
  | some base =>
    cases hemp : ((ln_split msg.data).1.1).isEmpty with
    | true =>
      exact Or.inr (Or.inl ⟨List.isEmpty_iff.mp hemp, by simp [cprint_imp_ln, hpc, hemp]⟩)
    | false =>
      refine Or.inr (Or.inr ⟨base, rfl, ?_, ln_split_append msg.data⟩)
      have hid : process_markdown reg (ln_split msg.data).1.1 base =
          some ((ln_split msg.data).1.1) :=
        process_markdown_id reg _ (ln_split_no_bracket h) base
      simp only [cprint_imp_ln, hpc, hemp, Bool.false_eq_true, if_false, hid]

theorem c9_whitespace_witness :
    (parse_color_ln default_colors "red" = none ∧
      cprint_imp_ln default_colors "red" " hi " = "") ∨
    ((ln_split " hi ".data).1.1 = [] ∧ cprint_imp_ln default_colors "red" " hi " = "") ∨
    (∃ base : RGB, parse_color_ln default_colors "red" = some base ∧
      cprint_imp_ln default_colors "red" " hi " = String.mk ((ln_split " hi ".data).1.2 ++
        RGB.to_ansi base ++ (ln_split " hi ".data).1.1 ++
        (ln_split " hi ".data).2 ++ ANSI_RESET.data) ∧
      (ln_split " hi ".data).1.2 ++ (ln_split " hi ".data).1.1 ++ (ln_split " hi ".data).2 =
        " hi ".data) :=
  c9_whitespace_amended default_colors "red" " hi " (by decide)

/-- C10, counterexample: the two comma-grouping implementations do not
agree on all of `i64` — at `i64::MIN` the `"number"` format panics on
`abs` (debug overflow checks; `none` here), while `to_comma_string`
returns the correct grouping. -/
theorem c10_comma_cex :
    format_number (intToString (-(2 ^ 63))) ≠
      some (to_comma_string (intToString (-(2 ^ 63)))) ∧
    format_number (intToString (-(2 ^ 63))) = none ∧
    to_comma_string (intToString (-(2 ^ 63))) = "-9,223,372,036,854,775,808" := by
  decide

/-- C10, amended: for every `i64` value other than `i64::MIN`, applying
the `"number"` semantic format to the decimal rendering yields exactly
`to_comma_string` of that rendering. -/
theorem c10_comma_amended (n : Int) (h₁ : -(2 ^ 63) ≤ n) (h₂ : n ≤ 2 ^ 63 - 1)
    (h₃ : n ≠ -(2 ^ 63)) :
    format_number (intToString n) = some (to_comma_string (intToString n)) :=
  format_number_eq_to_comma n h₁ h₂ h₃

theorem c10_comma_witness :
    format_number (intToString (-1234567)) =
      some (to_comma_string (intToString (-1234567))) :=
  c10_comma_amended (-1234567) (by decide) (by decide) (by decide)
